import Mathlib

/-!
Shallow embedding of the v4l2r decoder control plane, covering the buffer
state machine of `src/device/queue.rs` and the stateful-decoder logic of
`src/decoder/stateful.rs`.

Machine-level aspects (ioctl calls, the device fd, the poller) are modelled
as explicit environment inputs: every ioctl result that the code consumes
is a parameter of the corresponding Lean function, so the Lean functions
embed exactly the state updates and control flow the Rust code performs on
those results. Rust panics (`expect`, `unwrap`, `unreachable!`, `panic!`,
`todo!`, out-of-bounds indexing) are modelled by an `Option` result whose
`none` value means the code panicked.
-/

namespace V4l2r

/-- Plane handles of a buffer: an ordered sequence of per-plane memory
descriptors (`PlaneHandles<M>` in the source). The concrete per-plane
descriptor is backend-defined and irrelevant to the control plane, so each
plane handle is abstracted as a `Nat`. -/
abbrev PlaneHandles := List Nat

/-- Modelled from the spec: the `BufferState` enum of
`device/queue/states.rs`, which is not part of the provided sources but is
fully pinned down by its uses in `queue.rs` and by the spec (section 3,
"BufferState — a tagged variant"): Free, PreQueue, Queued(plane_handles),
Dequeued. -/
inductive BufferState where
  | Free
  | PreQueue
  | Queued (plane_handles : PlaneHandles)
  | Dequeued
deriving DecidableEq, Repr

def BufferState.isFree : BufferState → Bool
  | .Free => true
  | _ => false

def BufferState.isPreQueue : BufferState → Bool
  | .PreQueue => true
  | _ => false

def BufferState.isQueued : BufferState → Bool
  | .Queued _ => true
  | _ => false

def BufferState.isDequeued : BufferState → Bool
  | .Dequeued => true
  | _ => false

/-- Number of distinct state predicates a buffer state satisfies; the
"every buffer is in exactly one of {Free, PreQueue, Queued, Dequeued}"
invariant says this is always 1. -/
def stateTagCount (s : BufferState) : Nat :=
  (if s.isFree then 1 else 0) + (if s.isPreQueue then 1 else 0) +
    (if s.isQueued then 1 else 0) + (if s.isDequeued then 1 else 0)

/-- A queue in the `BuffersAllocated` state (`struct BuffersAllocated<M>`
in `queue.rs`): the per-buffer state table plus the queued-buffer counter.
`buffer_info` is indexed by buffer index: `BufferInfo::features.index` of
entry `i` equals `i`, since `request_buffers` fills the table with
`querybuf(i)` for `i` in `0..num_buffers`. -/
structure AllocatedQueue where
  buffer_info : List BufferState
  num_queued_buffers : Nat
deriving DecidableEq, Repr

/-- Number of buffers in the `Queued` state. -/
def countQueued (l : List BufferState) : Nat :=
  (l.filter BufferState.isQueued).length

/-- `Queue::request_buffers` (queue.rs): after a successful `reqbufs` that
allocated `count` buffers (the driver may adjust the requested count;
`count` here is the actual number returned), every buffer-info record is
installed in the `Free` state and the queued counter starts at
`Default::default()`, i.e. 0. -/
def request_buffers (count : Nat) : AllocatedQueue :=
  { buffer_info := List.replicate count BufferState.Free
    num_queued_buffers := 0 }

inductive TryGetBufferError where
  | InvalidIndex (index : Nat)
  | AlreadyUsed
deriving DecidableEq, Repr

inductive GetFreeBufferError where
  | NoFreeBuffer
deriving DecidableEq, Repr

/-- `GetBufferByIndex::try_get_buffer` (queue.rs): looks up the buffer at
`index` (error `InvalidIndex` if out of range), errors with `AlreadyUsed`
unless the state is `Free`, otherwise moves the state to `PreQueue` and
returns a `QBuffer` bound to that index (modelled as the index plus the
updated queue). -/
def try_get_buffer (q : AllocatedQueue) (index : Nat) :
    Except TryGetBufferError (Nat × AllocatedQueue) :=
  match q.buffer_info[index]? with
  | none => Except.error (TryGetBufferError.InvalidIndex index)
  | some state =>
    match state with
    | BufferState.Free =>
      Except.ok (index,
        { q with buffer_info := q.buffer_info.set index BufferState.PreQueue })
    | _ => Except.error TryGetBufferError.AlreadyUsed

/-- Index of the first `Free` entry, mirroring
`buffer_info.iter().enumerate().find(|(_, s)| matches!(.., Free))` in
`try_get_free_buffer` (queue.rs). -/
def find_free_index : List BufferState → Option Nat
  | [] => none
  | s :: rest =>
    match s with
    | BufferState.Free => some 0
    | _ => (find_free_index rest).map (fun i => i + 1)

/-- `GetFreeBuffer::try_get_free_buffer` (queue.rs): scans for the first
`Free` entry; `NoFreeBuffer` if none; otherwise delegates to
`try_get_buffer` on the found index and `unwrap`s the result (`none`
models the unwrap panic, which never fires). -/
def try_get_free_buffer (q : AllocatedQueue) :
    Option (Except GetFreeBufferError (Nat × AllocatedQueue)) :=
  match find_free_index q.buffer_info with
  | none => some (Except.error GetFreeBufferError.NoFreeBuffer)
  | some i =>
    match try_get_buffer q i with
    | Except.ok r => some (Except.ok r)
    | Except.error _ => none

/-- The data of an `ioctl::DQBuffer` as consumed by the core: the buffer
index, whether the `LAST` flag is set, and the `bytesused` value of each
plane. -/
structure IoctlDQBuf where
  index : Nat
  flags_last : Bool
  planes_bytesused : List Nat
deriving DecidableEq, Repr

/-- Result of the raw `ioctl::dqbuf` call, an environment input of
`try_dequeue`. -/
inductive DQBufIoctl where
  | ok (dqbuf : IoctlDQBuf)
  | corruptedBuffer (dqbuf : IoctlDQBuf)
  | eos
  | notReady
  | ioctlError
deriving DecidableEq, Repr

/-- The `DQBuffer` object returned by `try_dequeue`: the buffer index, the
plane handles reclaimed from the `Queued` state, the raw dqbuf data, and
the `BufferStateFuse` armed on the buffer's state slot (`some slot` =
armed at that slot, `none` = disarmed). -/
structure DQBuffer where
  index : Nat
  plane_handles : PlaneHandles
  data : IoctlDQBuf
  fuse_slot : Option Nat
deriving DecidableEq, Repr

/-- Result of `TryDequeue::try_dequeue`, mirroring `DQBufResult`. -/
inductive DQBufResult where
  | ok (buffer : DQBuffer)
  | corruptedBuffer (buffer : DQBuffer)
  | eos
  | notReady
  | ioctlError
deriving DecidableEq, Repr

/-- The body of `try_dequeue` after the ioctl returned buffer data `dqbuf`
(either `Ok` or as payload of `CorruptedBuffer`, per `error_flag_set`):
looks up the buffer-info record (`expect` panic if out of range), replaces
its state with `Dequeued` stealing the queued plane handles (`unreachable!`
panic if the state was not `Queued`), arms a fuse on the state slot,
decrements `num_queued_buffers`, and builds the `DQBuffer`. -/
def try_dequeue_process (q : AllocatedQueue) (dqbuf : IoctlDQBuf)
    (error_flag_set : Bool) : Option (DQBufResult × AllocatedQueue) :=
  match q.buffer_info[dqbuf.index]? with
  | none => none
  | some (BufferState.Queued plane_handles) =>
    some (if error_flag_set then
        (DQBufResult.corruptedBuffer
          ⟨dqbuf.index, plane_handles, dqbuf, some dqbuf.index⟩,
          ⟨q.buffer_info.set dqbuf.index BufferState.Dequeued,
            q.num_queued_buffers - 1⟩)
      else
        (DQBufResult.ok ⟨dqbuf.index, plane_handles, dqbuf, some dqbuf.index⟩,
          ⟨q.buffer_info.set dqbuf.index BufferState.Dequeued,
            q.num_queued_buffers - 1⟩))
  | some _ => none

/-- `TryDequeue::try_dequeue` (queue.rs): `EOS`, `NotReady` and
`IoctlError` from the ioctl are returned verbatim with no state change; an
`Ok` or `CorruptedBuffer` ioctl result proceeds to the common dequeue
processing, with the corrupted case surfaced as
`Err(CorruptedBuffer(dqbuffer))` after the same state updates. -/
def try_dequeue (q : AllocatedQueue) (dqr : DQBufIoctl) :
    Option (DQBufResult × AllocatedQueue) :=
  match dqr with
  | DQBufIoctl.eos => some (DQBufResult.eos, q)
  | DQBufIoctl.notReady => some (DQBufResult.notReady, q)
  | DQBufIoctl.ioctlError => some (DQBufResult.ioctlError, q)
  | DQBufIoctl.ok dqbuf => try_dequeue_process q dqbuf false
  | DQBufIoctl.corruptedBuffer dqbuf => try_dequeue_process q dqbuf true

/-- `CanceledBuffer` (queue.rs): index and plane handles of a queued
buffer canceled by `stream_off`. -/
structure CanceledBuffer where
  index : Nat
  plane_handles : PlaneHandles
deriving DecidableEq, Repr

/-- The canceled-buffer list built by `stream_off`'s
`iter().filter_map(..)` walk: entries whose state is `Queued(handles)`
contribute `{index, handles}` in table order, where `features.index` of
entry `i` is `i` (`first` is the index of the head entry). -/
def canceled_from (first : Nat) : List BufferState → List CanceledBuffer
  | [] => []
  | BufferState.Queued h :: rest =>
    { index := first, plane_handles := h } :: canceled_from (first + 1) rest
  | _ :: rest => canceled_from (first + 1) rest

/-- Per-entry state update of `stream_off`: `Queued` entries are replaced
by `Free`, all other entries are left untouched. -/
def freeIfQueued (s : BufferState) : BufferState :=
  match s with
  | BufferState.Queued _ => BufferState.Free
  | s => s

/-- `Stream::stream_off` (queue.rs), after a successful `streamoff` ioctl:
walks every buffer-info record, moves each `Queued(handles)` record to
`Free` collecting `{index, handles}` into the canceled list, and
decrements the queued counter by the number of canceled buffers. -/
def stream_off (q : AllocatedQueue) : List CanceledBuffer × AllocatedQueue :=
  let canceled := canceled_from 0 q.buffer_info
  (canceled,
    { buffer_info := q.buffer_info.map freeIfQueued
      num_queued_buffers := q.num_queued_buffers - canceled.length })

/-- The world of buffer-state cells a `BufferStateFuse`'s weak reference
can point into: cell `i` is alive holding a state (`some s`) or has been
destroyed (`none`), modelling `Arc<Mutex<BufferState>>` cells that a
`Weak` may or may not still be able to upgrade. -/
abbrev FuseWorld := List (Option BufferState)

/-- `BufferStateFuse` (queue.rs): holds a weak reference to a buffer-state
cell. `buffer_state = some i` models a weak reference to cell `i`;
`none` models `Weak::new()` (the empty weak reference installed by
`disarm`). -/
structure BufferStateFuse where
  buffer_state : Option Nat
deriving DecidableEq, Repr

/-- `BufferStateFuse::new`: a fuse armed on a state slot. -/
def BufferStateFuse.new (slot : Nat) : BufferStateFuse :=
  { buffer_state := some slot }

/-- `BufferStateFuse::disarm`: drops the weak reference
(`self.buffer_state = Weak::new()`). -/
def BufferStateFuse.disarm (_f : BufferStateFuse) : BufferStateFuse :=
  { buffer_state := none }

/-- `BufferStateFuse::trigger` (run by `Drop::drop`): upgrades the weak
reference; on failure (disarmed fuse, or referenced cell destroyed) does
nothing; on success sets the referenced state to `Free` and disarms. The
function is total: no input panics. -/
def BufferStateFuse.trigger (w : FuseWorld) (f : BufferStateFuse) :
    FuseWorld × BufferStateFuse :=
  match f.buffer_state with
  | none => (w, f)
  | some i =>
    match w[i]? with
    | some (some _) => (w.set i (some BufferState.Free), { buffer_state := none })
    | _ => (w, f)

/-- A pixel format description as consumed by `Decoder::open`: only the
`COMPRESSED` flag of `FormatFlags` matters. -/
structure FmtDesc where
  compressed : Bool
deriving DecidableEq, Repr

/-- Device-side inputs of the stateful-decoder validation in
`Decoder::<AwaitingOutputFormat>::open` (stateful.rs): the pixel formats
advertised by the OUTPUT and CAPTURE queues, and whether the OUTPUT
queue's capabilities contain `SUPPORTS_REQUESTS`. -/
structure DecoderDevice where
  output_formats : List FmtDesc
  capture_formats : List FmtDesc
  output_supports_requests : Bool
deriving DecidableEq, Repr

/-- Outcome of `Decoder::open` once the device and both queues have been
obtained successfully (the earlier `DeviceOpenError` / `CreateQueueError`
failure modes are distinct error variants outside this claim's scope). -/
inductive DecoderOpenResult where
  | notAStatefulDecoder
  | awaitingOutputFormat
deriving DecidableEq, Repr

/-- The validation logic of `Decoder::<AwaitingOutputFormat>::open`
(stateful.rs): `output_queue.format_iter().find(COMPRESSED)
.and(capture_queue.format_iter().find(!COMPRESSED)).ok_or(NotAStatefulDecoder)`,
then rejection if the OUTPUT queue capabilities contain
`SUPPORTS_REQUESTS`; on success the decoder is in the
`AwaitingOutputFormat` state. -/
def decoder_open (d : DecoderDevice) : DecoderOpenResult :=
  match (d.output_formats.find? (fun f => f.compressed)).bind
      (fun _ => d.capture_formats.find? (fun f => !f.compressed)) with
  | none => DecoderOpenResult.notAStatefulDecoder
  | some _ =>
    if d.output_supports_requests then DecoderOpenResult.notAStatefulDecoder
    else DecoderOpenResult.awaitingOutputFormat

/-! ## Decoding-phase OUTPUT-buffer acquisition (stateful.rs)

The driver side of the OUTPUT queue is modelled by a completion list
`ready : List Nat`: the indices of buffers the driver has finished with,
in completion order. `ioctl::dqbuf` returns the head completion, or
`NotReady` when the list is empty (the device is opened in non-blocking
dqbuf mode). -/

/-- Modelled from the spec: dropping a `DQBuffer` (its `Drop` impl lives
in `device/queue/dqbuf.rs`, not part of the provided sources) triggers its
armed fuse, which returns the buffer's state slot to `Free` (spec sections
3 and 4.2: "Dequeued — returns to Free when that handle is dropped";
"arms a BufferStateFuse ... so that dropping the DQBuffer returns the
state to Free"). -/
def drop_dqbuffer (q : AllocatedQueue) (b : DQBuffer) : AllocatedQueue :=
  match b.fuse_slot with
  | none => q
  | some i => { q with buffer_info := q.buffer_info.set i BufferState.Free }

/-- `Decoder::<Decoding>::dequeue_output_buffers` (stateful.rs): while
`num_queued_buffers > 0`, try to dequeue; on `Ok(buf)` invoke
`input_done_cb` with the handles taken from the buffer (recorded in the
returned trace, in call order) and drop the buffer (fuse frees its slot);
on `NotReady` break; any other error is returned (`none` here also covers
the dequeue-processing panics). Returns the final queue, the remaining
completion list, and the callback trace. -/
def dequeue_output_buffers (q : AllocatedQueue) (ready : List Nat)
    (trace : List PlaneHandles) :
    Option (AllocatedQueue × List Nat × List PlaneHandles) :=
  if q.num_queued_buffers > 0 then
    match ready with
    | [] => some (q, [], trace)
    | i :: rest =>
      let dqbuf : IoctlDQBuf :=
        { index := i, flags_last := false, planes_bytesused := [] }
      match try_dequeue_process q dqbuf false with
      | none => none
      | some (DQBufResult.ok b, q2) =>
        dequeue_output_buffers (drop_dqbuffer q2 b) rest (trace ++ [b.plane_handles])
      | some _ => none
  else
    some (q, ready, trace)
termination_by ready.length

/-- The drain loop of the decoder's `try_get_free_buffer` (stateful.rs):
`while self.state.output_queue.try_dequeue().is_ok() {}` — each iteration
dequeues one completed buffer and immediately drops the temporary
`DQBuffer` (fuse frees its slot); no callback is invoked. Stops when the
ioctl reports `NotReady` (empty completion list). -/
def drain_output_no_cb (q : AllocatedQueue) (ready : List Nat) :
    Option AllocatedQueue :=
  match ready with
  | [] => some q
  | i :: rest =>
    let dqbuf : IoctlDQBuf :=
      { index := i, flags_last := false, planes_bytesused := [] }
    match try_dequeue_process q dqbuf false with
    | none => none
    | some (DQBufResult.ok b, q2) => drain_output_no_cb (drop_dqbuffer q2 b) rest
    | some _ => none

/-- `GetFreeOutputBuffer::try_get_free_buffer` for
`Decoder<Decoding<..>>` (stateful.rs): drains all ready OUTPUT
completions without invoking any callback, then acquires a free buffer
from the OUTPUT queue. The returned trace of `input_done_cb` invocations
is empty. -/
def decoder_try_get_free_buffer (q : AllocatedQueue) (ready : List Nat) :
    Option (Except GetFreeBufferError (Nat × AllocatedQueue) × List PlaneHandles) :=
  match drain_output_no_cb q ready with
  | none => none
  | some q2 =>
    match try_get_free_buffer q2 with
    | none => none
    | some r => some (r, [])

/-- `Decoder::<Decoding>::get_buffer` (stateful.rs): if every allocated
buffer is currently queued, block in the OUTPUT poller
(`wait_for_output_buffer`; the wakeup event is `DEVICE_OUTPUT`) and drain
completed buffers through `dequeue_output_buffers`, invoking
`input_done_cb` on each; then delegate to the decoder's
`try_get_free_buffer`. Returns the acquisition result and the full
`input_done_cb` trace of the call. -/
def decoder_get_buffer (q : AllocatedQueue) (ready : List Nat) :
    Option (Except GetFreeBufferError (Nat × AllocatedQueue) × List PlaneHandles) :=
  if q.num_queued_buffers = q.buffer_info.length then
    match dequeue_output_buffers q ready [] with
    | none => none
    | some (q2, ready2, trace) =>
      match decoder_try_get_free_buffer q2 ready2 with
      | none => none
      | some (r, trace2) => some (r, trace ++ trace2)
  else
    decoder_try_get_free_buffer q ready

/-! ## Decoder worker thread (`DecoderThread`, stateful.rs) -/

/-- The worker's CAPTURE-queue sub-state (`enum CaptureQueue`,
stateful.rs): `AwaitingResolution` holds a queue still in `Init` (carrying
no buffer table), `Decoding` holds a queue in `BuffersAllocated`. -/
inductive CaptureQueue where
  | awaitingResolution
  | decoding (queue : AllocatedQueue)
deriving DecidableEq, Repr

def CaptureQueue.isDecoding : CaptureQueue → Bool
  | .decoding _ => true
  | _ => false

/-- Poller event subscriptions relevant to the worker (`DeviceEvent`
enable/disable state of the `Poller`). -/
structure PollerState where
  capture_ready : Bool
  v4l2_event : Bool
deriving DecidableEq, Repr

/-- Modelled from the spec: `QBuffer::queue_with_handles`
(`device/queue/qbuf.rs`, not part of the provided sources): submitting a
prepared buffer moves its state `PreQueue → Queued(handles)` and
increments the queued counter (spec section 4.3). -/
def queue_with_handles (q : AllocatedQueue) (index : Nat)
    (handles : PlaneHandles) : AllocatedQueue :=
  { buffer_info := q.buffer_info.set index (BufferState.Queued handles)
    num_queued_buffers := q.num_queued_buffers + 1 }

/-- The loop body of `DecoderThread::enqueue_capture_buffers`
(stateful.rs): while `try_get_free_buffer` succeeds, submit the acquired
buffer with default (empty) handles. Each success turns one `Free` entry
into `Queued`, so `q.buffer_info.length` iterations of fuel always
suffice to reach the `NoFreeBuffer` exit. -/
def enqueue_capture_loop : Nat → AllocatedQueue → AllocatedQueue
  | 0, q => q
  | fuel + 1, q =>
    match try_get_free_buffer q with
    | some (Except.ok (i, q2)) => enqueue_capture_loop fuel (queue_with_handles q2 i [])
    | _ => q

/-- `DecoderThread::enqueue_capture_buffers` (stateful.rs): in the
`Decoding` sub-state requeues every currently free CAPTURE buffer; in
`AwaitingResolution` does nothing. -/
def enqueue_capture_buffers (cq : CaptureQueue) : CaptureQueue :=
  match cq with
  | CaptureQueue.decoding q =>
    CaptureQueue.decoding (enqueue_capture_loop q.buffer_info.length q)
  | cq => cq

/-- `DecoderThread::update_capture_resolution` (stateful.rs): whatever the
current sub-state (a `Decoding` queue is streamed off and its buffers
freed first), the CAPTURE queue is re-formatted through
`set_capture_format_cb`, `alloc_count` buffers are allocated (the code
requests 4; the driver reports the actual count), the poller is
reconfigured (`CaptureReady` enabled, `V4L2Event` disabled), the queue is
streamed on, and every free buffer is enqueued. The result is always the
`Decoding` sub-state. -/
def update_capture_resolution (_cq : CaptureQueue) (alloc_count : Nat)
    (_p : PollerState) : CaptureQueue × PollerState :=
  let fresh := request_buffers alloc_count
  (enqueue_capture_buffers (CaptureQueue.decoding fresh),
    { capture_ready := true, v4l2_event := false })

/-- A V4L2 event dequeued by `ioctl::dqevent`: a source-change event with
its change mask restricted to the `RESOLUTION` bit, plus the buffer count
the driver grants for the subsequent CAPTURE allocation. -/
structure SrcChangeEvent where
  resolution : Bool
  alloc_count : Nat
deriving DecidableEq, Repr

/-- `DecoderThread::process_events` (stateful.rs): drains all pending
events until `dqevent` reports `NotReady`; each source-change event whose
mask contains `RESOLUTION` runs `update_capture_resolution`. -/
def process_events (events : List SrcChangeEvent) (cq : CaptureQueue)
    (p : PollerState) : CaptureQueue × PollerState :=
  match events with
  | [] => (cq, p)
  | e :: rest =>
    if e.resolution then
      let (cq2, p2) := update_capture_resolution cq e.alloc_count p
      process_events rest cq2 p2
    else
      process_events rest cq p

/-- `DecoderThread::process_capture_buffer` (stateful.rs): panics
(`none`) outside the `Decoding` sub-state or when `try_dequeue` does not
return `Ok`; otherwise reads the `LAST` flag and the first plane's
`bytesused` (panic if there is no plane 0), delivers the buffer to
`output_ready_cb` unless it is empty, and returns whether the worker
should exit (`is_last`). A delivered buffer stays `Dequeued` (the client
holds it); an empty buffer is dropped on the spot, its fuse returning the
slot to `Free`. The delivered-buffer trace records the
`output_ready_cb` invocations. -/
def process_capture_buffer (cq : CaptureQueue) (dq : DQBufIoctl) :
    Option (Bool × CaptureQueue × List DQBuffer) :=
  match cq with
  | CaptureQueue.decoding q =>
    match try_dequeue q dq with
    | some (DQBufResult.ok b, q2) =>
      let is_last := b.data.flags_last
      match b.data.planes_bytesused[0]? with
      | none => none
      | some bytesused0 =>
        let is_empty := bytesused0 = 0
        if is_empty then
          some (is_last, CaptureQueue.decoding (drop_dqbuffer q2 b), [])
        else
          some (is_last, CaptureQueue.decoding q2, [b])
    | _ => none
  | _ => none

/-- The `CaptureReady` toggling block at the top of each iteration of
`DecoderThread::run` (stateful.rs): in the `Decoding` sub-state, a zero
`num_queued_buffers` disables the `CaptureReady` poller event before the
`poll` call and a nonzero count enables it; in `AwaitingResolution` the
poller is left as is. -/
def prepare_poller (cq : CaptureQueue) (p : PollerState) : PollerState :=
  match cq with
  | CaptureQueue.decoding q =>
    match q.num_queued_buffers with
    | 0 => { p with capture_ready := false }
    | _ + 1 => { p with capture_ready := true }
  | _ => p

/-- One scripted iteration of the worker environment: which `PollEvents`
the `poll` call reports, the dqbuf result consumed if `DEVICE_CAPTURE`
is set, and the events drained if `DEVICE_EVENT` is set. -/
structure IterInput where
  device_capture : Bool
  device_event : Bool
  waker : Bool
  capture_dq : DQBufIoctl
  events : List SrcChangeEvent
deriving DecidableEq, Repr

/-- State of the worker thread (`DecoderThread` minus the callbacks),
augmented with two audit traces: the `output_ready_cb` deliveries, and for
every `poll` call the pair (queued-buffer count if in `Decoding`, whether
`CaptureReady` was enabled at that moment). -/
structure WorkerState where
  capture_queue : CaptureQueue
  poller : PollerState
  cb_trace : List DQBuffer
  poll_trace : List (Option Nat × Bool)
deriving DecidableEq, Repr

/-- The queued-buffer count visible to the poll-trace audit. -/
def CaptureQueue.numQueued : CaptureQueue → Option Nat
  | .decoding q => some q.num_queued_buffers
  | _ => none

/-- One iteration of the `'polling` loop of `DecoderThread::run`
(stateful.rs): toggle `CaptureReady` per `prepare_poller`, poll (the poll
call and its outcome `inp` are the environment; the pair recorded in
`poll_trace` is the queued-buffer count and the `CaptureReady` enablement
in force while blocked in `poll`), then process in order:
`DEVICE_CAPTURE` (one `process_capture_buffer`; a `true` result breaks
the loop), `DEVICE_EVENT` (`process_events`), `WAKER`
(`enqueue_capture_buffers`). `none` is a panic; otherwise the flag says
whether the loop exits with the returned state. -/
def run_iteration (s : WorkerState) (inp : IterInput) :
    Option (Bool × WorkerState) :=
  let p2 := prepare_poller s.capture_queue s.poller
  let s1 : WorkerState :=
    { s with
      poller := p2,
      poll_trace := s.poll_trace ++
        [(s.capture_queue.numQueued, p2.capture_ready)] }
  let afterCapture : Option (Bool × WorkerState) :=
    if inp.device_capture then
      match process_capture_buffer s1.capture_queue inp.capture_dq with
      | none => none
      | some (do_exit, cq2, delivered) =>
        some (do_exit, { s1 with
                         capture_queue := cq2,
                         cb_trace := s1.cb_trace ++ delivered })
    else
      some (false, s1)
  match afterCapture with
  | none => none
  | some (true, s2) => some (true, s2)
  | some (false, s2) =>
    let s3 : WorkerState :=
      if inp.device_event then
        let (cq3, p3) := process_events inp.events s2.capture_queue s2.poller
        { s2 with capture_queue := cq3, poller := p3 }
      else s2
    let s4 : WorkerState :=
      if inp.waker then
        { s3 with capture_queue := enqueue_capture_buffers s3.capture_queue }
      else s3
    some (false, s4)

/-- `DecoderThread::run` (stateful.rs): the `'polling` loop, iterated over
the scripted environment. An exhausted script or exhausted fuel models a
worker still blocked in `poll`, hence no normal return; `none` also
covers the panics inside an iteration; `some s` is a normal return of
`run` with final thread state `s`. -/
def run : Nat → WorkerState → List IterInput → Option WorkerState
  | 0, _, _ => none
  | _ + 1, _, [] => none
  | fuel + 1, s, inp :: rest =>
    match run_iteration s inp with
    | none => none
    | some (true, s2) => some s2
    | some (false, s4) => run fuel s4 rest

/-- Poll-trace audit predicate for the `CaptureReady` discipline: whenever
the worker polls in the `Decoding` sub-state, a zero queued-buffer count
must come with `CaptureReady` disabled and a nonzero count with
`CaptureReady` enabled. -/
def pollAuditOk (e : Option Nat × Bool) : Bool :=
  match e.1 with
  | some 0 => !e.2
  | some (_ + 1) => e.2
  | none => true

/-- The post-join match in `Decoder::<Decoding>::stop` (stateful.rs):
`Decoding` streams the CAPTURE queue off; any other sub-state hits the
`todo!()` panic, modelled as `none`. -/
def stop_after_join (cq : CaptureQueue) : Option (List CanceledBuffer) :=
  match cq with
  | CaptureQueue.decoding q => some (stream_off q).1
  | _ => none

deriving instance DecidableEq for Except

/-- The core counter invariant of a `BuffersAllocated` queue
(spec sections 4.3 and 8): the queued counter equals the number of
`Queued` per-buffer states and never exceeds the number of buffers. -/
def queueInv (q : AllocatedQueue) : Prop :=
  q.num_queued_buffers = countQueued q.buffer_info ∧
    q.num_queued_buffers ≤ q.buffer_info.length

instance (q : AllocatedQueue) : Decidable (queueInv q) := by
  unfold queueInv; infer_instance

/-- Plane handles recorded at index `i` of a buffer table (empty unless
the buffer is `Queued`). -/
def handlesAt (l : List BufferState) (i : Nat) : PlaneHandles :=
  match l[i]? with
  | some (BufferState.Queued h) => h
  | _ => []

end V4l2r

namespace V4l2r

theorem countQueued_nil : countQueued [] = 0 := rfl

theorem countQueued_cons (s : BufferState) (l : List BufferState) :
    countQueued (s :: l) = (if s.isQueued then 1 else 0) + countQueued l := by
  simp only [countQueued, List.filter_cons]
  split <;> simp [Nat.add_comm]

theorem countQueued_le_length (l : List BufferState) : countQueued l ≤ l.length :=
  List.length_filter_le _ _

theorem countQueued_replicate_free (n : Nat) :
    countQueued (List.replicate n BufferState.Free) = 0 := by
  induction n with
  | zero => rfl
  | succ n ih => simp [List.replicate_succ, countQueued_cons, ih, BufferState.isQueued]

theorem countQueued_set (l : List BufferState) (i : Nat) (a b : BufferState)
    (h : l[i]? = some a) :
    countQueued (l.set i b) + (if a.isQueued then 1 else 0) =
      countQueued l + (if b.isQueued then 1 else 0) := by
  induction l generalizing i with
  | nil => simp at h
  | cons x xs ih =>
    cases i with
    | zero =>
      simp only [List.getElem?_cons_zero, Option.some.injEq] at h
      cases h
      simp only [List.set, countQueued_cons]
      omega
    | succ j =>
      simp only [List.getElem?_cons_succ] at h
      have := ih j h
      simp only [List.set, countQueued_cons]
      omega

theorem try_get_buffer_inv (q : AllocatedQueue) (index j : Nat)
    (q2 : AllocatedQueue) (hinv : queueInv q)
    (hok : try_get_buffer q index = Except.ok (j, q2)) : queueInv q2 := by
  unfold try_get_buffer at hok
  cases hget : q.buffer_info[index]? with
  | none => rw [hget] at hok; exact absurd hok (by simp)
  | some s =>
    rw [hget] at hok
    cases s with
    | Free =>
      simp only [Except.ok.injEq, Prod.mk.injEq] at hok
      obtain ⟨rfl, rfl⟩ := hok
      obtain ⟨h1, h2⟩ := hinv
      have key := countQueued_set q.buffer_info index BufferState.Free BufferState.PreQueue hget
      simp only [BufferState.isQueued] at key
      refine ⟨?_, ?_⟩
      · show q.num_queued_buffers = countQueued (q.buffer_info.set index BufferState.PreQueue)
        omega
      · show q.num_queued_buffers ≤ (q.buffer_info.set index BufferState.PreQueue).length
        rw [List.length_set]
        exact h2
    | PreQueue => exact absurd hok (by simp)
    | Queued h => exact absurd hok (by simp)
    | Dequeued => exact absurd hok (by simp)

end V4l2r

namespace V4l2r

theorem countQueued_map_freeIfQueued (l : List BufferState) :
    countQueued (l.map freeIfQueued) = 0 := by
  induction l with
  | nil => rfl
  | cons x xs ih =>
    cases x <;> simp [countQueued_cons, freeIfQueued, BufferState.isQueued, ih]

theorem canceled_from_length (k : Nat) (l : List BufferState) :
    (canceled_from k l).length = countQueued l := by
  induction l generalizing k with
  | nil => rfl
  | cons x xs ih =>
    cases x <;> simp [canceled_from, countQueued_cons, BufferState.isQueued, ih, Nat.add_comm]

theorem try_dequeue_process_inv (q : AllocatedQueue) (dqbuf : IoctlDQBuf)
    (e : Bool) (r : DQBufResult) (q2 : AllocatedQueue)
    (hinv : queueInv q) (hp : try_dequeue_process q dqbuf e = some (r, q2)) :
    queueInv q2 := by
  unfold try_dequeue_process at hp
  cases hget : q.buffer_info[dqbuf.index]? with
  | none => simp [hget] at hp
  | some s =>
    cases s with
    | Queued h =>
      simp only [hget] at hp
      have key := countQueued_set q.buffer_info dqbuf.index (BufferState.Queued h)
        BufferState.Dequeued hget
      simp [BufferState.isQueued] at key
      obtain ⟨h1, h2⟩ := hinv
      have hq2 : q2 = ⟨q.buffer_info.set dqbuf.index BufferState.Dequeued,
          q.num_queued_buffers - 1⟩ := by
        split at hp <;>
          (injection hp with hpair; injection hpair with hr hq; exact hq.symm)
      subst hq2
      refine ⟨?_, ?_⟩
      · show q.num_queued_buffers - 1 =
          countQueued (q.buffer_info.set dqbuf.index BufferState.Dequeued)
        omega
      · show q.num_queued_buffers - 1 ≤
          (q.buffer_info.set dqbuf.index BufferState.Dequeued).length
        rw [List.length_set]
        omega
    | Free => simp [hget] at hp
    | PreQueue => simp [hget] at hp
    | Dequeued => simp [hget] at hp

theorem stream_off_inv (q : AllocatedQueue) (hinv : queueInv q) :
    queueInv (stream_off q).2 := by
  obtain ⟨h1, h2⟩ := hinv
  have hc := canceled_from_length 0 q.buffer_info
  refine ⟨?_, ?_⟩
  · show q.num_queued_buffers - (canceled_from 0 q.buffer_info).length =
      countQueued (q.buffer_info.map freeIfQueued)
    rw [countQueued_map_freeIfQueued]
    omega
  · show q.num_queued_buffers - (canceled_from 0 q.buffer_info).length ≤
      (q.buffer_info.map freeIfQueued).length
    rw [List.length_map]
    omega

end V4l2r


namespace V4l2r

theorem isFree_eq_false_of_ne (x : BufferState) (hx : x ≠ BufferState.Free) :
    x.isFree = false := by
  cases x <;> simp_all [BufferState.isFree]

theorem find_free_index_nil : find_free_index [] = none := rfl

theorem find_free_index_cons_free (xs : List BufferState) :
    find_free_index (BufferState.Free :: xs) = some 0 := rfl

theorem find_free_index_cons_not_free (x : BufferState) (xs : List BufferState)
    (hx : x ≠ BufferState.Free) :
    find_free_index (x :: xs) = (find_free_index xs).map (fun i => i + 1) := by
  cases x <;> simp_all [find_free_index]

theorem find_free_index_spec (l : List BufferState) (i : Nat)
    (h : find_free_index l = some i) :
    l[i]? = some BufferState.Free ∧
      ∀ j, j < i → l[j]? ≠ some BufferState.Free := by
  induction l generalizing i with
  | nil => simp [find_free_index] at h
  | cons x xs ih =>
    by_cases hx : x = BufferState.Free
    · subst hx
      rw [find_free_index_cons_free] at h
      injection h with h
      subst h
      exact ⟨by simp, by omega⟩
    · rw [find_free_index_cons_not_free x xs hx] at h
      cases hf : find_free_index xs with
      | none => rw [hf] at h; simp at h
      | some j =>
        rw [hf] at h
        simp at h
        subst h
        obtain ⟨ih1, ih2⟩ := ih j hf
        refine ⟨by simpa using ih1, ?_⟩
        intro k hk
        cases k with
        | zero =>
          simp only [List.getElem?_cons_zero, Option.some.injEq]
          exact fun hcon => hx (Option.some.inj hcon)
        | succ m =>
          simp only [List.getElem?_cons_succ]
          exact ih2 m (by omega)

theorem find_free_index_eq_none_iff (l : List BufferState) :
    find_free_index l = none ↔ ∀ s ∈ l, s ≠ BufferState.Free := by
  induction l with
  | nil => simp [find_free_index]
  | cons x xs ih =>
    by_cases hx : x = BufferState.Free
    · subst hx
      simp [find_free_index_cons_free]
    · rw [find_free_index_cons_not_free x xs hx]
      simp [Option.map_eq_none', ih, hx]

theorem try_get_buffer_of_free (q : AllocatedQueue) (i : Nat)
    (h : q.buffer_info[i]? = some BufferState.Free) :
    try_get_buffer q i = Except.ok (i,
      ⟨q.buffer_info.set i BufferState.PreQueue, q.num_queued_buffers⟩) := by
  unfold try_get_buffer
  simp only [h]

theorem try_get_free_buffer_of_find (q : AllocatedQueue) (i : Nat)
    (h : find_free_index q.buffer_info = some i) :
    try_get_free_buffer q = some (Except.ok (i,
      ⟨q.buffer_info.set i BufferState.PreQueue, q.num_queued_buffers⟩)) := by
  unfold try_get_free_buffer
  simp only [h, try_get_buffer_of_free q i (find_free_index_spec q.buffer_info i h).1]

theorem try_get_free_buffer_total (q : AllocatedQueue) :
    ∃ r, try_get_free_buffer q = some r := by
  cases hf : find_free_index q.buffer_info with
  | none => exact ⟨_, by unfold try_get_free_buffer; rw [hf]⟩
  | some i => exact ⟨_, try_get_free_buffer_of_find q i hf⟩

theorem request_buffers_inv (count : Nat) : queueInv (request_buffers count) := by
  refine ⟨?_, ?_⟩ <;>
    simp [request_buffers, countQueued_replicate_free]

theorem try_get_free_buffer_inv (q : AllocatedQueue) (j : Nat)
    (q2 : AllocatedQueue) (hinv : queueInv q)
    (hok : try_get_free_buffer q = some (Except.ok (j, q2))) : queueInv q2 := by
  unfold try_get_free_buffer at hok
  cases hf : find_free_index q.buffer_info with
  | none => simp [hf] at hok
  | some i =>
    simp only [hf] at hok
    cases htb : try_get_buffer q i with
    | ok r =>
      simp only [htb, Option.some.injEq, Except.ok.injEq] at hok
      cases r with
      | mk a b =>
        simp only [Prod.mk.injEq] at hok
        obtain ⟨rfl, rfl⟩ := hok
        exact try_get_buffer_inv q i a b hinv (by rw [htb])
    | error e => simp [htb] at hok

theorem try_dequeue_inv (q : AllocatedQueue) (dqr : DQBufIoctl)
    (r : DQBufResult) (q2 : AllocatedQueue) (hinv : queueInv q)
    (h : try_dequeue q dqr = some (r, q2)) : queueInv q2 := by
  cases dqr with
  | eos =>
    unfold try_dequeue at h
    injection h with h2
    injection h2 with hr hq
    exact hq ▸ hinv
  | notReady =>
    unfold try_dequeue at h
    injection h with h2
    injection h2 with hr hq
    exact hq ▸ hinv
  | ioctlError =>
    unfold try_dequeue at h
    injection h with h2
    injection h2 with hr hq
    exact hq ▸ hinv
  | ok dqbuf => exact try_dequeue_process_inv q dqbuf false r q2 hinv h
  | corruptedBuffer dqbuf => exact try_dequeue_process_inv q dqbuf true r q2 hinv h

theorem stateTagCount_eq_one (s : BufferState) : stateTagCount s = 1 := by
  cases s <;> rfl

/-- C1: after every public queue operation on a `BuffersAllocated` queue -
`request_buffers`, `try_get_buffer`, `try_get_free_buffer`, `try_dequeue`,
`stream_off` - the counter `num_queued_buffers` equals the number of
per-buffer states equal to `Queued` and is at most `num_buffers`, and
every buffer state satisfies exactly one of the four state predicates. -/
theorem c1_queue_counter_invariant :
    (∀ count, queueInv (request_buffers count)) ∧
    (∀ q index j q2, queueInv q →
      try_get_buffer q index = Except.ok (j, q2) → queueInv q2) ∧
    (∀ q j q2, queueInv q →
      try_get_free_buffer q = some (Except.ok (j, q2)) → queueInv q2) ∧
    (∀ q dqr r q2, queueInv q →
      try_dequeue q dqr = some (r, q2) → queueInv q2) ∧
    (∀ q, queueInv q → queueInv (stream_off q).2) ∧
    (∀ s, stateTagCount s = 1) :=
  ⟨request_buffers_inv,
   fun q index j q2 h1 h2 => try_get_buffer_inv q index j q2 h1 h2,
   fun q j q2 h1 h2 => try_get_free_buffer_inv q j q2 h1 h2,
   fun q dqr r q2 h1 h2 => try_dequeue_inv q dqr r q2 h1 h2,
   stream_off_inv,
   stateTagCount_eq_one⟩

/-- C1 witness: the invariant transported through a concrete
`try_get_buffer` call. -/
theorem c1_queue_counter_invariant_witness :
    queueInv ⟨[BufferState.PreQueue, BufferState.Queued [3]], 1⟩ :=
  c1_queue_counter_invariant.2.1 ⟨[BufferState.Free, BufferState.Queued [3]], 1⟩ 0 0
    ⟨[BufferState.PreQueue, BufferState.Queued [3]], 1⟩ (by decide) (by decide)

end V4l2r

namespace V4l2r

/-- C3: a successful `try_dequeue` moves the dequeued buffer's state from
`Queued(handles)` to `Dequeued`, stashes the handles in the returned
`DQBuffer`, decrements `num_queued_buffers` by one, and arms a fuse on the
buffer's state slot; a corrupted-buffer ioctl result performs the same
update but surfaces the `DQBuffer` inside `CorruptedBuffer`; `NotReady`,
`EOS` and `IoctlError` are returned verbatim with no state change. -/
theorem c3_try_dequeue_semantics (q : AllocatedQueue) (dqbuf : IoctlDQBuf)
    (h : PlaneHandles)
    (hget : q.buffer_info[dqbuf.index]? = some (BufferState.Queued h))
    (hinv : queueInv q) :
    try_dequeue q (DQBufIoctl.ok dqbuf) =
      some (DQBufResult.ok ⟨dqbuf.index, h, dqbuf, some dqbuf.index⟩,
        ⟨q.buffer_info.set dqbuf.index BufferState.Dequeued,
          q.num_queued_buffers - 1⟩) ∧
    try_dequeue q (DQBufIoctl.corruptedBuffer dqbuf) =
      some (DQBufResult.corruptedBuffer ⟨dqbuf.index, h, dqbuf, some dqbuf.index⟩,
        ⟨q.buffer_info.set dqbuf.index BufferState.Dequeued,
          q.num_queued_buffers - 1⟩) ∧
    (q.num_queued_buffers - 1) + 1 = q.num_queued_buffers ∧
    try_dequeue q DQBufIoctl.notReady = some (DQBufResult.notReady, q) ∧
    try_dequeue q DQBufIoctl.eos = some (DQBufResult.eos, q) ∧
    try_dequeue q DQBufIoctl.ioctlError = some (DQBufResult.ioctlError, q) := by
  have key := countQueued_set q.buffer_info dqbuf.index (BufferState.Queued h)
    BufferState.Dequeued hget
  simp [BufferState.isQueued] at key
  obtain ⟨h1, h2⟩ := hinv
  refine ⟨?_, ?_, by omega, rfl, rfl, rfl⟩
  · unfold try_dequeue try_dequeue_process
    simp [hget]
  · unfold try_dequeue try_dequeue_process
    simp [hget]

/-- C3 witness: dequeue of a concrete queued buffer. -/
theorem c3_try_dequeue_semantics_witness :
    try_dequeue ⟨[BufferState.Queued [7]], 1⟩ (DQBufIoctl.ok ⟨0, false, [4]⟩) =
      some (DQBufResult.ok ⟨0, [7], ⟨0, false, [4]⟩, some 0⟩,
        ⟨[BufferState.Dequeued], 0⟩) :=
  (c3_try_dequeue_semantics ⟨[BufferState.Queued [7]], 1⟩ ⟨0, false, [4]⟩ [7]
    (by rfl) (by decide)).1

end V4l2r

namespace V4l2r

theorem canceled_from_cons_queued (k : Nat) (h : PlaneHandles)
    (xs : List BufferState) :
    canceled_from k (BufferState.Queued h :: xs) =
      ⟨k, h⟩ :: canceled_from (k + 1) xs := rfl

theorem canceled_from_cons_not_queued (k : Nat) (x : BufferState)
    (xs : List BufferState) (hx : x.isQueued = false) :
    canceled_from k (x :: xs) = canceled_from (k + 1) xs := by
  cases x with
  | Queued g => simp [BufferState.isQueued] at hx
  | Free => rfl
  | PreQueue => rfl
  | Dequeued => rfl

theorem mem_canceled_from (k i : Nat) (h : PlaneHandles) (l : List BufferState) :
    (⟨i, h⟩ : CanceledBuffer) ∈ canceled_from k l ↔
      ∃ j, i = k + j ∧ l[j]? = some (BufferState.Queued h) := by
  induction l generalizing k with
  | nil => simp [canceled_from]
  | cons x xs ih =>
    by_cases hx : x.isQueued = true
    · obtain ⟨g, rfl⟩ : ∃ g, x = BufferState.Queued g := by
        cases x <;> simp_all [BufferState.isQueued]
      rw [canceled_from_cons_queued]
      simp only [List.mem_cons, CanceledBuffer.mk.injEq, ih (k + 1)]
      constructor
      · rintro (⟨rfl, rfl⟩ | ⟨j, rfl, hj⟩)
        · exact ⟨0, by simp⟩
        · exact ⟨j + 1, by omega, by simpa using hj⟩
      · rintro ⟨j, rfl, hj⟩
        cases j with
        | zero =>
          simp only [List.getElem?_cons_zero, Option.some.injEq,
            BufferState.Queued.injEq] at hj
          exact Or.inl ⟨by omega, hj.symm⟩
        | succ m =>
          exact Or.inr ⟨m, by omega, by simpa using hj⟩
    · rw [canceled_from_cons_not_queued k x xs (by simpa using hx)]
      rw [ih (k + 1)]
      constructor
      · rintro ⟨j, rfl, hj⟩
        exact ⟨j + 1, by omega, by simpa using hj⟩
      · rintro ⟨j, rfl, hj⟩
        cases j with
        | zero =>
          simp only [List.getElem?_cons_zero, Option.some.injEq] at hj
          subst hj
          simp [BufferState.isQueued] at hx
        | succ m =>
          exact ⟨m, by omega, by simpa using hj⟩

theorem canceled_from_eq_nil (k : Nat) (l : List BufferState)
    (hl : ∀ s ∈ l, s.isQueued = false) :
    canceled_from k l = [] := by
  induction l generalizing k with
  | nil => rfl
  | cons x xs ih =>
    rw [canceled_from_cons_not_queued k x xs (hl x (by simp))]
    exact ih (k + 1) (fun s hs => hl s (by simp [hs]))

theorem map_freeIfQueued_eq_self (l : List BufferState)
    (hl : ∀ s ∈ l, s.isQueued = false) :
    l.map freeIfQueued = l := by
  induction l with
  | nil => rfl
  | cons x xs ih =>
    have hx := hl x (by simp)
    have : freeIfQueued x = x := by
      cases x <;> simp_all [freeIfQueued, BufferState.isQueued]
    simp [this, ih (fun s hs => hl s (by simp [hs]))]

/-- C4: `stream_off` moves every `Queued(handles)` buffer to `Free` and
returns exactly the `{index, handles}` pairs of those buffers, decrements
`num_queued_buffers` by the number of cancellations, and leaves
non-`Queued` (in particular `Dequeued` and `PreQueue`) buffers unchanged;
on an all-`Free` queue it returns an empty canceled list and changes
nothing. -/
theorem c4_stream_off_semantics (q : AllocatedQueue) (hinv : queueInv q) :
    (∀ i h, q.buffer_info[i]? = some (BufferState.Queued h) →
      (stream_off q).2.buffer_info[i]? = some BufferState.Free ∧
        (⟨i, h⟩ : CanceledBuffer) ∈ (stream_off q).1) ∧
    (∀ c, c ∈ (stream_off q).1 →
      q.buffer_info[c.index]? = some (BufferState.Queued c.plane_handles)) ∧
    (∀ (i : Nat) (s : BufferState), q.buffer_info[i]? = some s →
      s.isQueued = false → (stream_off q).2.buffer_info[i]? = some s) ∧
    (stream_off q).2.num_queued_buffers + (stream_off q).1.length =
      q.num_queued_buffers ∧
    ((∀ s ∈ q.buffer_info, s = BufferState.Free) →
      (stream_off q).1 = [] ∧ (stream_off q).2 = q) := by
  obtain ⟨h1, h2⟩ := hinv
  refine ⟨?_, ?_, ?_, ?_, ?_⟩
  · intro i h hget
    constructor
    · show (q.buffer_info.map freeIfQueued)[i]? = some BufferState.Free
      rw [List.getElem?_map, hget]
      rfl
    · exact (mem_canceled_from 0 i h q.buffer_info).mpr ⟨i, by omega, hget⟩
  · intro c hc
    cases c with
    | mk i h =>
      obtain ⟨j, hj1, hj2⟩ := (mem_canceled_from 0 i h q.buffer_info).mp hc
      simpa [show i = j by omega] using hj2
  · intro i s hget hs
    show (q.buffer_info.map freeIfQueued)[i]? = some s
    rw [List.getElem?_map, hget]
    have : freeIfQueued s = s := by
      cases s <;> simp_all [freeIfQueued, BufferState.isQueued]
    simp [this]
  · show q.num_queued_buffers - (canceled_from 0 q.buffer_info).length +
      (canceled_from 0 q.buffer_info).length = q.num_queued_buffers
    have := canceled_from_length 0 q.buffer_info
    omega
  · intro hfree
    have hnq : ∀ s ∈ q.buffer_info, s.isQueued = false := by
      intro s hs
      rw [hfree s hs]
      rfl
    have hc := canceled_from_eq_nil 0 q.buffer_info hnq
    refine ⟨hc, ?_⟩
    show (⟨q.buffer_info.map freeIfQueued,
      q.num_queued_buffers - (canceled_from 0 q.buffer_info).length⟩ :
        AllocatedQueue) = q
    rw [map_freeIfQueued_eq_self q.buffer_info hnq, hc]
    cases q
    simp

/-- C4 witness: `stream_off` on a queue holding one queued and one
dequeued buffer frees the queued one and reports it as canceled. -/
theorem c4_stream_off_semantics_witness :
    (stream_off ⟨[BufferState.Queued [7], BufferState.Dequeued], 1⟩).2.buffer_info[0]? =
        some BufferState.Free ∧
      (⟨0, [7]⟩ : CanceledBuffer) ∈
        (stream_off ⟨[BufferState.Queued [7], BufferState.Dequeued], 1⟩).1 :=
  (c4_stream_off_semantics ⟨[BufferState.Queued [7], BufferState.Dequeued], 1⟩
    (by decide)).1 0 [7] (by rfl)

end V4l2r

namespace V4l2r

/-- C5: dropping an armed `BufferStateFuse` whose referenced state cell is
alive sets that state to `Free` (and disarms the fuse); dropping a
disarmed fuse leaves the world untouched; dropping an armed fuse whose
referenced cell has been destroyed (or never existed, i.e. the weak
upgrade fails) leaves the world untouched - and since
`BufferStateFuse.trigger` is a total function there is no panic in any
case. -/
theorem c5_fuse_drop_semantics (w : FuseWorld) (i : Nat) (s : BufferState)
    (f : BufferStateFuse) :
    (w[i]? = some (some s) →
      BufferStateFuse.trigger w (BufferStateFuse.new i) =
        (w.set i (some BufferState.Free), ⟨none⟩)) ∧
    BufferStateFuse.trigger w (f.disarm) = (w, ⟨none⟩) ∧
    (w[i]? = some none →
      BufferStateFuse.trigger w (BufferStateFuse.new i) =
        (w, BufferStateFuse.new i)) ∧
    (w[i]? = none →
      BufferStateFuse.trigger w (BufferStateFuse.new i) =
        (w, BufferStateFuse.new i)) := by
  refine ⟨?_, rfl, ?_, ?_⟩
  · intro hw
    unfold BufferStateFuse.trigger BufferStateFuse.new
    simp [hw]
  · intro hw
    unfold BufferStateFuse.trigger BufferStateFuse.new
    simp [hw]
  · intro hw
    unfold BufferStateFuse.trigger BufferStateFuse.new
    simp [hw]

/-- C5 witness: an armed fuse over a live `Dequeued` cell frees it; an
armed fuse over a destroyed cell and one past the end of the world are
no-ops. -/
theorem c5_fuse_drop_semantics_witness :
    BufferStateFuse.trigger [some BufferState.Dequeued, none]
        (BufferStateFuse.new 0) =
      ([some BufferState.Free, none], ⟨none⟩) ∧
    BufferStateFuse.trigger [some BufferState.Dequeued, none]
        (BufferStateFuse.new 1) =
      ([some BufferState.Dequeued, none], BufferStateFuse.new 1) ∧
    BufferStateFuse.trigger [some BufferState.Dequeued, none]
        (BufferStateFuse.new 5) =
      ([some BufferState.Dequeued, none], BufferStateFuse.new 5) :=
  ⟨(c5_fuse_drop_semantics [some BufferState.Dequeued, none] 0
      BufferState.Dequeued ⟨none⟩).1 (by rfl),
   (c5_fuse_drop_semantics [some BufferState.Dequeued, none] 1
      BufferState.Dequeued ⟨none⟩).2.2.1 (by rfl),
   (c5_fuse_drop_semantics [some BufferState.Dequeued, none] 5
      BufferState.Dequeued ⟨none⟩).2.2.2 (by rfl)⟩

end V4l2r

namespace V4l2r

/-- C6: `open` yields `NotAStatefulDecoder` exactly when the OUTPUT queue
advertises no `COMPRESSED` pixel format, or the CAPTURE queue advertises
no pixel format lacking `COMPRESSED`, or the OUTPUT queue capabilities
contain `SUPPORTS_REQUESTS`; when none of these hold the decoder comes
back in the `AwaitingOutputFormat` phase. -/
theorem c6_open_stateful_validation (d : DecoderDevice) :
    (decoder_open d = DecoderOpenResult.notAStatefulDecoder ↔
      (∀ f ∈ d.output_formats, f.compressed = false) ∨
      (∀ f ∈ d.capture_formats, f.compressed = true) ∨
      d.output_supports_requests = true) ∧
    (decoder_open d = DecoderOpenResult.awaitingOutputFormat ↔
      (∃ f ∈ d.output_formats, f.compressed = true) ∧
      (∃ f ∈ d.capture_formats, f.compressed = false) ∧
      d.output_supports_requests = false) := by
  unfold decoder_open
  cases hfo : d.output_formats.find? (fun f => f.compressed) with
  | none =>
    rw [List.find?_eq_none] at hfo
    simp only [Option.none_bind]
    constructor
    · simp only [true_iff]
      exact Or.inl (fun f hf => by simpa using hfo f hf)
    · constructor
      · intro hcon; cases hcon
      · rintro ⟨⟨f, hf, hfc⟩, _, _⟩
        exact absurd hfc (by simpa using hfo f hf)
  | some f0 =>
    have hf0mem := List.mem_of_find?_eq_some hfo
    have hf0c : f0.compressed = true := List.find?_some hfo
    simp only [Option.some_bind]
    cases hfc : d.capture_formats.find? (fun f => !f.compressed) with
    | none =>
      rw [List.find?_eq_none] at hfc
      constructor
      · simp only [true_iff]
        refine Or.inr (Or.inl (fun f hf => ?_))
        have := hfc f hf
        simpa using this
      · constructor
        · intro hcon; cases hcon
        · rintro ⟨_, ⟨g, hg, hgc⟩, _⟩
          have := hfc g hg
          simp [hgc] at this
    | some g0 =>
      have hg0mem := List.mem_of_find?_eq_some hfc
      have hg0c : g0.compressed = false := by
        have := List.find?_some hfc
        simpa using this
      by_cases hreq : d.output_supports_requests = true
      · simp only [if_pos hreq]
        constructor
        · simp only [true_iff]
          exact Or.inr (Or.inr hreq)
        · constructor
          · intro hcon; cases hcon
          · rintro ⟨_, _, hfalse⟩
            rw [hreq] at hfalse
            cases hfalse
      · simp only [if_neg hreq]
        constructor
        · constructor
          · intro hcon; cases hcon
          · rintro (hout | hcap | hr)
            · exact absurd hf0c (by simp [hout f0 hf0mem])
            · exact absurd hg0c (by simp [hcap g0 hg0mem])
            · exact absurd hr hreq
        · simp only [true_iff]
          exact ⟨⟨f0, hf0mem, hf0c⟩, ⟨g0, hg0mem, hg0c⟩,
            by simpa using hreq⟩

/-- C6 witness: a device with a compressed OUTPUT format, an uncompressed
CAPTURE format and no request support opens as a stateful decoder, and
the same device with `SUPPORTS_REQUESTS` set is rejected. -/
theorem c6_open_stateful_validation_witness :
    decoder_open ⟨[⟨true⟩], [⟨false⟩], false⟩ =
        DecoderOpenResult.awaitingOutputFormat ∧
      decoder_open ⟨[⟨true⟩], [⟨false⟩], true⟩ =
        DecoderOpenResult.notAStatefulDecoder :=
  ⟨(c6_open_stateful_validation ⟨[⟨true⟩], [⟨false⟩], false⟩).2.mpr
      ⟨⟨⟨true⟩, by simp, rfl⟩, ⟨⟨false⟩, by simp, rfl⟩, rfl⟩,
   (c6_open_stateful_validation ⟨[⟨true⟩], [⟨false⟩], true⟩).1.mpr
      (Or.inr (Or.inr rfl))⟩

end V4l2r

namespace V4l2r

theorem find_free_index_eq_some_of (l : List BufferState) (i : Nat)
    (h1 : l[i]? = some BufferState.Free)
    (h2 : ∀ j, j < i → l[j]? ≠ some BufferState.Free) :
    find_free_index l = some i := by
  induction l generalizing i with
  | nil => simp at h1
  | cons x xs ih =>
    by_cases hx : x = BufferState.Free
    · subst hx
      cases i with
      | zero => exact find_free_index_cons_free xs
      | succ m => exact absurd (by simp) (h2 0 (by omega))
    · rw [find_free_index_cons_not_free x xs hx]
      cases i with
      | zero =>
        simp only [List.getElem?_cons_zero, Option.some.injEq] at h1
        exact absurd h1 hx
      | succ m =>
        rw [ih m (by simpa using h1)
          (fun j hj => by simpa using h2 (j + 1) (by omega))]
        rfl

/-- C7: `try_get_buffer` returns `InvalidIndex` for an out-of-range
index, `AlreadyUsed` when the buffer is not `Free`, and otherwise moves
the state from `Free` to `PreQueue` returning a `QBuffer` bound to that
index; `try_get_free_buffer` returns the buffer at the lowest `Free`
index via `try_get_buffer` and `NoFreeBuffer` when no buffer is `Free`. -/
theorem c7_acquire_free_semantics (q : AllocatedQueue) (index i : Nat) :
    (q.buffer_info.length ≤ index →
      try_get_buffer q index =
        Except.error (TryGetBufferError.InvalidIndex index)) ∧
    (∀ s : BufferState, q.buffer_info[index]? = some s →
      s ≠ BufferState.Free →
      try_get_buffer q index = Except.error TryGetBufferError.AlreadyUsed) ∧
    (q.buffer_info[index]? = some BufferState.Free →
      try_get_buffer q index = Except.ok (index,
        ⟨q.buffer_info.set index BufferState.PreQueue, q.num_queued_buffers⟩)) ∧
    ((∀ s ∈ q.buffer_info, s ≠ BufferState.Free) →
      try_get_free_buffer q =
        some (Except.error GetFreeBufferError.NoFreeBuffer)) ∧
    (q.buffer_info[i]? = some BufferState.Free →
      (∀ j, j < i → q.buffer_info[j]? ≠ some BufferState.Free) →
      try_get_free_buffer q = some (Except.ok (i,
        ⟨q.buffer_info.set i BufferState.PreQueue, q.num_queued_buffers⟩))) := by
  refine ⟨?_, ?_, ?_, ?_, ?_⟩
  · intro hlen
    unfold try_get_buffer
    have : q.buffer_info[index]? = none := by
      rw [List.getElem?_eq_none_iff]
      exact hlen
    simp [this]
  · intro s hget hs
    unfold try_get_buffer
    cases s <;> simp_all [hget]
  · intro hget
    exact try_get_buffer_of_free q index hget
  · intro hall
    unfold try_get_free_buffer
    rw [(find_free_index_eq_none_iff q.buffer_info).mpr hall]
  · intro hget hmin
    exact try_get_free_buffer_of_find q i
      (find_free_index_eq_some_of q.buffer_info i hget hmin)

/-- C7 witness: on a queue whose buffer 0 is `Dequeued` and buffer 1 is
`Free`, `try_get_free_buffer` picks index 1 and moves it to `PreQueue`. -/
theorem c7_acquire_free_semantics_witness :
    try_get_free_buffer ⟨[BufferState.Dequeued, BufferState.Free], 1⟩ =
      some (Except.ok (1,
        ⟨[BufferState.Dequeued, BufferState.PreQueue], 1⟩)) :=
  (c7_acquire_free_semantics ⟨[BufferState.Dequeued, BufferState.Free], 1⟩ 0
    1).2.2.2.2 (by rfl) (by decide)

end V4l2r

namespace V4l2r

theorem process_capture_buffer_decoding (cq cq2 : CaptureQueue)
    (dq : DQBufIoctl) (b : Bool) (tr : List DQBuffer)
    (hp : process_capture_buffer cq dq = some (b, cq2, tr)) :
    cq2.isDecoding = true := by
  unfold process_capture_buffer at hp
  cases cq with
  | awaitingResolution => cases hp
  | decoding q =>
    cases htd : try_dequeue q dq with
    | none => simp [htd] at hp
    | some r =>
      simp only [htd] at hp
      cases r with
      | mk dres q2 =>
        cases dres with
        | ok buf =>
          cases hpl : buf.data.planes_bytesused[0]? with
          | none => simp [hpl] at hp
          | some b0 =>
            simp only [hpl] at hp
            split at hp <;>
              (injection hp with hp2;
               injection hp2 with hb hrest;
               injection hrest with hcq htr;
               rw [hcq.symm];
               rfl)
        | corruptedBuffer buf => simp at hp
        | eos => simp at hp
        | notReady => simp at hp
        | ioctlError => simp at hp

theorem run_iteration_exit_decoding (s : WorkerState) (inp : IterInput)
    (s2 : WorkerState) (hit : run_iteration s inp = some (true, s2)) :
    s2.capture_queue.isDecoding = true := by
  unfold run_iteration at hit
  by_cases hdc : inp.device_capture = true
  · simp only [hdc, if_true] at hit
    cases hp : process_capture_buffer s.capture_queue inp.capture_dq with
    | none => simp [hp] at hit
    | some r =>
      simp only [hp] at hit
      cases r with
      | mk do_exit r2 =>
        cases r2 with
        | mk cq2 delivered =>
          cases do_exit with
          | true =>
            simp only at hit
            injection hit with hit2
            injection hit2 with hb hs
            rw [hs.symm]
            exact process_capture_buffer_decoding _ _ _ _ _ hp
          | false => simp at hit
  · simp only [hdc] at hit
    simp at hit

end V4l2r

namespace V4l2r

theorem run_iteration_poll_trace (s : WorkerState) (inp : IterInput)
    (b : Bool) (s2 : WorkerState)
    (hit : run_iteration s inp = some (b, s2)) :
    s2.poll_trace = s.poll_trace ++
      [(s.capture_queue.numQueued,
        (prepare_poller s.capture_queue s.poller).capture_ready)] := by
  unfold run_iteration at hit
  by_cases hdc : inp.device_capture = true
  · simp only [hdc, if_true] at hit
    cases hp : process_capture_buffer s.capture_queue inp.capture_dq with
    | none => simp [hp] at hit
    | some r =>
      simp only [hp] at hit
      cases r with
      | mk do_exit r2 =>
        cases r2 with
        | mk cq2 delivered =>
          cases do_exit with
          | true =>
            simp only at hit
            injection hit with hit2
            injection hit2 with hb hs
            rw [hs.symm]
          | false =>
            simp only at hit
            injection hit with hit2
            injection hit2 with hb hs
            rw [hs.symm]
            split <;> split <;> rfl
  · simp only [hdc] at hit
    injection hit with hit2
    injection hit2 with hb hs
    rw [hs.symm]
    split <;> split <;> rfl

theorem poll_entry_audit (cq : CaptureQueue) (p : PollerState) :
    pollAuditOk (cq.numQueued, (prepare_poller cq p).capture_ready) = true := by
  cases cq with
  | awaitingResolution => rfl
  | decoding q =>
    unfold prepare_poller CaptureQueue.numQueued pollAuditOk
    cases hq : q.num_queued_buffers with
    | zero => simp [hq]
    | succ n => simp [hq]

theorem run_poll_audit (fuel : Nat) (s : WorkerState) (script : List IterInput)
    (s2 : WorkerState) (hrun : run fuel s script = some s2)
    (hpre : ∀ e ∈ s.poll_trace, pollAuditOk e = true) :
    ∀ e ∈ s2.poll_trace, pollAuditOk e = true := by
  induction fuel generalizing s script with
  | zero => simp [run] at hrun
  | succ n ih =>
    cases script with
    | nil => simp [run] at hrun
    | cons inp rest =>
      rw [show run (n + 1) s (inp :: rest) =
          (match run_iteration s inp with
            | none => none
            | some (true, s2) => some s2
            | some (false, s4) => run n s4 rest) from rfl] at hrun
      cases hit : run_iteration s inp with
      | none => simp [hit] at hrun
      | some r =>
        simp only [hit] at hrun
        cases r with
        | mk b s4 =>
          have htr := run_iteration_poll_trace s inp b s4 hit
          have haud : ∀ e ∈ s4.poll_trace, pollAuditOk e = true := by
            rw [htr]
            intro e he
            rcases List.mem_append.mp he with he1 | he2
            · exact hpre e he1
            · rw [List.mem_singleton.mp he2]
              exact poll_entry_audit s.capture_queue s.poller
          cases b with
          | true =>
            simp only at hrun
            injection hrun with hs
            rw [hs.symm]
            exact haud
          | false =>
            simp only at hrun
            exact ih s4 rest hrun haud

end V4l2r

namespace V4l2r

/-- C9: on every iteration of the worker's poll loop in the `Decoding`
sub-state, `prepare_poller` disables `CaptureReady` before polling
exactly when `num_queued_buffers` is zero and enables it exactly when it
is nonzero; consequently, along any normally-returning `run`, every poll
the worker blocked in satisfies the audit: never `CaptureReady` enabled
together with zero queued CAPTURE buffers. -/
theorem c9_capture_ready_poll_discipline :
    (∀ (q : AllocatedQueue) (p : PollerState),
      ((prepare_poller (CaptureQueue.decoding q) p).capture_ready = false ↔
        q.num_queued_buffers = 0) ∧
      ((prepare_poller (CaptureQueue.decoding q) p).capture_ready = true ↔
        q.num_queued_buffers ≠ 0)) ∧
    (∀ (fuel : Nat) (s : WorkerState) (script : List IterInput)
      (s2 : WorkerState), run fuel s script = some s2 → s.poll_trace = [] →
      ∀ e ∈ s2.poll_trace, pollAuditOk e = true) := by
  refine ⟨?_, ?_⟩
  · intro q p
    unfold prepare_poller
    cases hq : q.num_queued_buffers with
    | zero => simp [hq]
    | succ n => simp [hq]
  · intro fuel s script s2 hrun hpre
    refine run_poll_audit fuel s script s2 hrun ?_
    rw [hpre]
    simp

/-- C9 witness: a one-iteration run with one queued CAPTURE buffer polls
with `CaptureReady` enabled and a queued count of one, passing the
audit. -/
theorem c9_capture_ready_poll_discipline_witness :
    ∀ e ∈ (⟨CaptureQueue.decoding ⟨[BufferState.Dequeued], 0⟩,
        ⟨true, false⟩, [⟨0, [], ⟨0, true, [100]⟩, some 0⟩],
        [(some 1, true)]⟩ : WorkerState).poll_trace,
      pollAuditOk e = true :=
  c9_capture_ready_poll_discipline.2 1
    ⟨CaptureQueue.decoding ⟨[BufferState.Queued []], 1⟩, ⟨true, false⟩, [], []⟩
    [⟨true, false, false, DQBufIoctl.ok ⟨0, true, [100]⟩, []⟩]
    ⟨CaptureQueue.decoding ⟨[BufferState.Dequeued], 0⟩,
      ⟨true, false⟩, [⟨0, [], ⟨0, true, [100]⟩, some 0⟩],
      [(some 1, true)]⟩
    (by rfl) rfl

/-- C10: whenever `DecoderThread::run` returns normally, the thread's
`capture_queue` is in the `Decoding` variant, never `AwaitingResolution`
(the loop exits only via `process_capture_buffer` returning true, which
requires `Decoding`, and no transition moves back to
`AwaitingResolution`); consequently the non-`Decoding` `todo!()` arm in
`stop` is unreachable after a normal worker exit. -/
theorem c10_worker_exit_in_decoding (fuel : Nat) (s : WorkerState)
    (script : List IterInput) (s2 : WorkerState)
    (hrun : run fuel s script = some s2) :
    s2.capture_queue.isDecoding = true ∧
      (stop_after_join s2.capture_queue).isSome = true := by
  have hdec : s2.capture_queue.isDecoding = true := by
    induction fuel generalizing s script with
    | zero => simp [run] at hrun
    | succ n ih =>
      cases script with
      | nil => simp [run] at hrun
      | cons inp rest =>
        rw [show run (n + 1) s (inp :: rest) =
            (match run_iteration s inp with
              | none => none
              | some (true, s4) => some s4
              | some (false, s4) => run n s4 rest) from rfl] at hrun
        cases hit : run_iteration s inp with
        | none => simp [hit] at hrun
        | some r =>
          simp only [hit] at hrun
          cases r with
          | mk b s4 =>
            cases b with
            | true =>
              simp only at hrun
              injection hrun with hs
              rw [hs.symm]
              exact run_iteration_exit_decoding s inp s4 hit
            | false =>
              simp only at hrun
              exact ih s4 rest hrun
  refine ⟨hdec, ?_⟩
  cases hcq : s2.capture_queue with
  | awaitingResolution => rw [hcq] at hdec; cases hdec
  | decoding q => rfl

/-- C10 witness: a concrete normally-returning run ends with the CAPTURE
queue in `Decoding` and `stop` passes its post-join match. -/
theorem c10_worker_exit_in_decoding_witness :
    (⟨CaptureQueue.decoding ⟨[BufferState.Dequeued], 0⟩,
        ⟨true, false⟩, [⟨0, [], ⟨0, true, [100]⟩, some 0⟩],
        [(some 1, true)]⟩ : WorkerState).capture_queue.isDecoding = true ∧
      (stop_after_join (⟨CaptureQueue.decoding ⟨[BufferState.Dequeued], 0⟩,
        ⟨true, false⟩, [⟨0, [], ⟨0, true, [100]⟩, some 0⟩],
        [(some 1, true)]⟩ : WorkerState).capture_queue).isSome = true :=
  c10_worker_exit_in_decoding 1
    ⟨CaptureQueue.decoding ⟨[BufferState.Queued []], 1⟩, ⟨true, false⟩, [], []⟩
    [⟨true, false, false, DQBufIoctl.ok ⟨0, true, [100]⟩, []⟩]
    ⟨CaptureQueue.decoding ⟨[BufferState.Dequeued], 0⟩,
      ⟨true, false⟩, [⟨0, [], ⟨0, true, [100]⟩, some 0⟩],
      [(some 1, true)]⟩
    (by rfl)

end V4l2r

namespace V4l2r

theorem run_two_single (s : WorkerState) (inp : IterInput) :
    run 2 s [inp] = (match run_iteration s inp with
      | none => none
      | some (true, s2) => some s2
      | some (false, _) => none) := by
  rw [show run 2 s [inp] = (match run_iteration s inp with
      | none => none
      | some (true, s2) => some s2
      | some (false, s4) => run 1 s4 []) from rfl]
  cases run_iteration s inp with
  | none => rfl
  | some r =>
    cases r with
    | mk b s4 => cases b <;> rfl

theorem c8_process_core (q : AllocatedQueue) (dqbuf : IoctlDQBuf)
    (h : PlaneHandles) (b0 : Nat) (brest : List Nat)
    (hget : q.buffer_info[dqbuf.index]? = some (BufferState.Queued h))
    (hpl : dqbuf.planes_bytesused = b0 :: brest) :
    process_capture_buffer (CaptureQueue.decoding q) (DQBufIoctl.ok dqbuf) =
      some (dqbuf.flags_last,
        (if b0 = 0 then
          CaptureQueue.decoding ⟨q.buffer_info.set dqbuf.index BufferState.Free,
            q.num_queued_buffers - 1⟩
        else
          CaptureQueue.decoding
            ⟨q.buffer_info.set dqbuf.index BufferState.Dequeued,
              q.num_queued_buffers - 1⟩),
        if b0 = 0 then [] else
          [⟨dqbuf.index, h, dqbuf, some dqbuf.index⟩]) := by
  unfold process_capture_buffer try_dequeue try_dequeue_process drop_dqbuffer
  simp only [hget, hpl]
  by_cases hb : b0 = 0
  · simp [hpl, hb, List.set_set]
  · simp [hpl, hb]

end V4l2r

namespace V4l2r

/-- C8: when the worker dequeues a CAPTURE buffer, it passes the buffer
to `output_ready_cb` if and only if the first plane's `bytesused` is
nonzero (the delivered-buffer trace of `process_capture_buffer` is
exactly the dequeued buffer when nonempty and empty otherwise), and it
signals loop exit if and only if the buffer carries the `LAST` flag;
at the `run` level, an iteration whose CAPTURE buffer has `LAST` set
returns normally with the delivery appended to the callback trace before
the exit, while the same iteration without `LAST` keeps looping. -/
theorem c8_capture_delivery_and_exit (q : AllocatedQueue)
    (dqbuf : IoctlDQBuf) (h : PlaneHandles) (b0 : Nat) (brest : List Nat)
    (hget : q.buffer_info[dqbuf.index]? = some (BufferState.Queued h))
    (hpl : dqbuf.planes_bytesused = b0 :: brest) :
    process_capture_buffer (CaptureQueue.decoding q) (DQBufIoctl.ok dqbuf) =
      some (dqbuf.flags_last,
        (if b0 = 0 then
          CaptureQueue.decoding ⟨q.buffer_info.set dqbuf.index BufferState.Free,
            q.num_queued_buffers - 1⟩
        else
          CaptureQueue.decoding
            ⟨q.buffer_info.set dqbuf.index BufferState.Dequeued,
              q.num_queued_buffers - 1⟩),
        if b0 = 0 then [] else
          [⟨dqbuf.index, h, dqbuf, some dqbuf.index⟩]) ∧
    (∀ (p : PollerState) (ctr : List DQBuffer)
      (ptr : List (Option Nat × Bool)) (ev wk : Bool)
      (evs : List SrcChangeEvent),
      (dqbuf.flags_last = true →
        ∃ s2, run 2 ⟨CaptureQueue.decoding q, p, ctr, ptr⟩
            [⟨true, ev, wk, DQBufIoctl.ok dqbuf, evs⟩] = some s2 ∧
          s2.cb_trace = ctr ++ (if b0 = 0 then [] else
            [⟨dqbuf.index, h, dqbuf, some dqbuf.index⟩])) ∧
      (dqbuf.flags_last = false →
        run 2 ⟨CaptureQueue.decoding q, p, ctr, ptr⟩
          [⟨true, ev, wk, DQBufIoctl.ok dqbuf, evs⟩] = none)) := by
  have hproc := c8_process_core q dqbuf h b0 brest hget hpl
  refine ⟨hproc, ?_⟩
  intro p ctr ptr ev wk evs
  constructor
  · intro hlast
    rw [run_two_single]
    unfold run_iteration
    dsimp only
    simp only [hproc, hlast]
    exact ⟨_, rfl, by simp⟩
  · intro hlast
    rw [run_two_single]
    unfold run_iteration
    dsimp only
    simp only [hproc, hlast]
    simp

end V4l2r

namespace V4l2r

/-- C8 witness: a concrete non-empty LAST buffer is delivered and flags
exit. -/
theorem c8_capture_delivery_and_exit_witness :
    process_capture_buffer (CaptureQueue.decoding ⟨[BufferState.Queued []], 1⟩)
        (DQBufIoctl.ok ⟨0, true, [100]⟩) =
      some (true, CaptureQueue.decoding ⟨[BufferState.Dequeued], 0⟩,
        [⟨0, [], ⟨0, true, [100]⟩, some 0⟩]) :=
  (c8_capture_delivery_and_exit ⟨[BufferState.Queued []], 1⟩ ⟨0, true, [100]⟩
    [] 100 [] (by rfl) (by rfl)).1

end V4l2r

namespace V4l2r

theorem drain_loop_spec (ready : List Nat) (q : AllocatedQueue)
    (tr : List PlaneHandles)
    (hnd : ready.Nodup)
    (hmem : ∀ i ∈ ready, ∃ h, q.buffer_info[i]? = some (BufferState.Queued h))
    (hcnt : q.num_queued_buffers = ready.length) :
    ∃ q2, dequeue_output_buffers q ready tr =
        some (q2, [], tr ++ ready.map (handlesAt q.buffer_info)) ∧
      q2.num_queued_buffers = 0 ∧
      q2.buffer_info.length = q.buffer_info.length ∧
      (∀ i ∈ ready, q2.buffer_info[i]? = some BufferState.Free) ∧
      (∀ j, j ∉ ready → q2.buffer_info[j]? = q.buffer_info[j]?) := by
  induction ready generalizing q tr with
  | nil =>
    refine ⟨q, ?_, hcnt, rfl, by simp, fun j _ => rfl⟩
    unfold dequeue_output_buffers
    rw [hcnt]
    simp
  | cons i rest ih =>
    obtain ⟨h, hget⟩ := hmem i (by simp)
    have hipos : q.num_queued_buffers > 0 := by rw [hcnt]; simp
    have hnotmem : i ∉ rest := (List.nodup_cons.mp hnd).1
    have hstep : try_dequeue_process q ⟨i, false, []⟩ false =
        some (DQBufResult.ok ⟨i, h, ⟨i, false, []⟩, some i⟩,
          ⟨q.buffer_info.set i BufferState.Dequeued,
            q.num_queued_buffers - 1⟩) := by
      unfold try_dequeue_process
      simp [hget]
    have hdrop : drop_dqbuffer
        ⟨q.buffer_info.set i BufferState.Dequeued, q.num_queued_buffers - 1⟩
        ⟨i, h, ⟨i, false, []⟩, some i⟩ =
        ⟨q.buffer_info.set i BufferState.Free, q.num_queued_buffers - 1⟩ := by
      unfold drop_dqbuffer
      simp [List.set_set]
    set q3 : AllocatedQueue :=
      ⟨q.buffer_info.set i BufferState.Free, q.num_queued_buffers - 1⟩ with hq3
    have hmem3 : ∀ j ∈ rest, ∃ g, q3.buffer_info[j]? =
        some (BufferState.Queued g) := by
      intro j hj
      obtain ⟨g, hg⟩ := hmem j (by simp [hj])
      refine ⟨g, ?_⟩
      rw [hq3]
      show (q.buffer_info.set i BufferState.Free)[j]? = some (BufferState.Queued g)
      rw [List.getElem?_set_ne (by rintro rfl; exact hnotmem hj)]
      exact hg
    have hcnt3 : q3.num_queued_buffers = rest.length := by
      rw [hq3]
      show q.num_queued_buffers - 1 = rest.length
      rw [hcnt]
      simp
    obtain ⟨q2, hrun, hz, hlen, hfree, hunch⟩ :=
      ih q3 (tr ++ [h]) (List.nodup_cons.mp hnd).2 hmem3 hcnt3
    have hmap : rest.map (handlesAt q3.buffer_info) =
        rest.map (handlesAt q.buffer_info) := by
      apply List.map_congr_left
      intro j hj
      unfold handlesAt
      rw [hq3]
      show (match (q.buffer_info.set i BufferState.Free)[j]? with
        | some (BufferState.Queued h) => h
        | _ => ([] : PlaneHandles)) = _
      rw [List.getElem?_set_ne (by rintro rfl; exact hnotmem hj)]
    refine ⟨q2, ?_, hz, ?_, ?_, ?_⟩
    · unfold dequeue_output_buffers
      rw [if_pos hipos]
      simp only [hstep, hdrop]
      rw [hrun, hmap]
      have : handlesAt q.buffer_info i = h := by
        unfold handlesAt
        rw [hget]
      simp [this]
    · rw [hlen, hq3]
      show (q.buffer_info.set i BufferState.Free).length = _
      rw [List.length_set]
    · intro j hj
      rcases List.mem_cons.mp hj with rfl | hj2
      · rw [hunch j hnotmem, hq3]
        show (q.buffer_info.set j BufferState.Free)[j]? = some BufferState.Free
        rw [List.getElem?_set_self', hget]
        rfl
      · exact hfree j hj2
    · intro j hj
      have hji : j ≠ i := fun hji => hj (by simp [hji])
      have hjr : j ∉ rest := fun hjr => hj (by simp [hjr])
      rw [hunch j hjr, hq3]
      show (q.buffer_info.set i BufferState.Free)[j]? = q.buffer_info[j]?
      rw [List.getElem?_set_ne (fun hij => hji hij.symm)]

/-- C2 counterexample: on a queue with a single OUTPUT buffer in
`Queued [5]` whose completion is ready, the decoder's
`try_get_free_buffer` drains the completed buffer (its state travels
`Queued -> Dequeued -> Free` and it is re-acquired as `PreQueue`) yet the
`input_done_cb` trace of the call is `[]`, not `[[5]]`: the drain loop
`while try_dequeue().is_ok() {}` discards the buffer and its handles
without invoking `input_done_cb`. -/
theorem c2_counterexample :
    decoder_try_get_free_buffer ⟨[BufferState.Queued [5]], 1⟩ [0] =
        some (Except.ok (0, ⟨[BufferState.PreQueue], 0⟩), []) ∧
      ([] : List PlaneHandles) ≠ [[5]] := by
  constructor
  · rfl
  · intro hcon
    cases hcon

theorem decoder_try_get_free_buffer_no_cb (q : AllocatedQueue)
    (ready : List Nat) (r : Except GetFreeBufferError (Nat × AllocatedQueue))
    (tr : List PlaneHandles)
    (hres : decoder_try_get_free_buffer q ready = some (r, tr)) : tr = [] := by
  unfold decoder_try_get_free_buffer at hres
  cases hd : drain_output_no_cb q ready with
  | none => simp [hd] at hres
  | some q2 =>
    simp only [hd] at hres
    cases hf : try_get_free_buffer q2 with
    | none => simp [hf] at hres
    | some r2 =>
      simp only [hf] at hres
      injection hres with hres2
      injection hres2 with hr htr
      exact htr.symm

/-- C2 amended: in `get_buffer`'s blocking path (every OUTPUT buffer
queued), the post-poll drain `dequeue_output_buffers` invokes
`input_done_cb` once per drained buffer with that buffer's reclaimed
plane handles, in completion order, before a free buffer is acquired; the
decoder's `try_get_free_buffer`, in contrast, drains ready OUTPUT
completions without ever invoking `input_done_cb`. -/
theorem c2_amended_callback_discipline (q : AllocatedQueue)
    (ready : List Nat)
    (hnd : ready.Nodup)
    (hmem : ∀ i ∈ ready, ∃ h, q.buffer_info[i]? = some (BufferState.Queued h))
    (hcnt : q.num_queued_buffers = ready.length)
    (hall : q.num_queued_buffers = q.buffer_info.length) :
    (∃ r, decoder_get_buffer q ready =
      some (r, ready.map (handlesAt q.buffer_info))) ∧
    (∀ (q3 : AllocatedQueue) (rd : List Nat)
      (r : Except GetFreeBufferError (Nat × AllocatedQueue))
      (tr : List PlaneHandles),
      decoder_try_get_free_buffer q3 rd = some (r, tr) → tr = []) := by
  refine ⟨?_, decoder_try_get_free_buffer_no_cb⟩
  obtain ⟨q2, hrun, hz, hlen, hfree, hunch⟩ :=
    drain_loop_spec ready q [] hnd hmem hcnt
  obtain ⟨r, hr⟩ := try_get_free_buffer_total q2
  refine ⟨r, ?_⟩
  unfold decoder_get_buffer decoder_try_get_free_buffer
  rw [if_pos hall]
  have hdrain : drain_output_no_cb q2 [] = some q2 := rfl
  simp only [hrun, hdrain, hr]
  simp

/-- C2 amended witness: with two queued buffers whose completions arrive
in the order 1, 0, `get_buffer` reports both buffers' handles to
`input_done_cb` in completion order. -/
theorem c2_amended_callback_discipline_witness :
    ∃ r, decoder_get_buffer
        ⟨[BufferState.Queued [5], BufferState.Queued [6]], 2⟩ [1, 0] =
      some (r, [[6], [5]]) :=
  (c2_amended_callback_discipline
    ⟨[BufferState.Queued [5], BufferState.Queued [6]], 2⟩ [1, 0]
    (by decide)
    (by
      intro i hi
      fin_cases hi
      · exact ⟨[6], rfl⟩
      · exact ⟨[5], rfl⟩)
    (by decide) (by decide)).1

end V4l2r
